import Mathlib

/-!
Verification of the deblock transaction-monitor coordinator.

The Go sources are shallowly embedded:
* `internal/blockchain/blockchain.go` data types,
* `internal/pubsub` event type and topic,
* `internal/txmonitor/txmonitor_service.go` - `processBlock`,
  `isTransactionRelevant`, and the `Start`/`Stop`/goroutine lifecycle as a
  labelled transition system,
* `internal/address/address_watcher.go` - the in-memory address watcher.

Collaborators (address watcher, distributed lock, JSON marshalling, the
publisher) are modelled as oracle functions supplied in an environment, and
`processBlock` is given as a function returning its error result together
with the ordered trace of collaborator calls it performs.
-/

namespace Deblock

/-! ## Data model (internal/blockchain/blockchain.go) -/

namespace Blockchain

/-- `blockchain.Transaction`: Source, Destination, Amount, Fees, Hash,
BlockNumber.  The Go fields `Amount`, `Fees`, `BlockNumber` are `*big.Int`
(arbitrary precision), embedded as `Int`. -/
structure Transaction where
  source : String
  destination : String
  amount : Int
  fees : Int
  hash : String
  blockNumber : Int
deriving Repr, DecidableEq

/-- `blockchain.Block`: Number, Hash, Timestamp, Difficulty, Transactions. -/
structure Block where
  number : Int
  hash : String
  timestamp : Int
  difficulty : Int
  transactions : List Transaction
deriving Repr, DecidableEq

end Blockchain

/-! ## Pub/sub event type and topic (internal/pubsub) -/

namespace Pubsub

/-- `pubsub.Transaction`: the published event record.  It has exactly the
fields Source, Destination, Amount, Fees, Hash - no block number. -/
structure Transaction where
  source : String
  destination : String
  amount : Int
  fees : Int
  hash : String
deriving Repr, DecidableEq

/-- Modelled from the spec: the constant `pubsub.TopicTransaction` is
referenced by `txmonitor_service.go` but its defining pubsub source file is
not among the available sources; the spec fixes the topic name used for all
transaction events as "transaction". -/
def TopicTransaction : String := "transaction"

end Pubsub

/-! ## Go `encoding/json` marshalling of `pubsub.Transaction`

`json.Marshal` on a struct without tags emits the exported field names in
declaration order.  Strings are escaped with Go's default HTML-escaping
encoder; `*big.Int` marshals as a bare decimal numeral. -/

/-- Lower-case hexadecimal digit, as used by Go's `\u00XX` escapes. -/
def hexDigit (n : Nat) : String :=
  String.singleton (Char.ofNat (if n < 10 then 48 + n else 87 + n))

/-- Escape of a single character inside a Go-JSON string literal. -/
def jsonEscapeChar (c : Char) : String :=
  if c = '"' then "\\\""
  else if c = '\\' then "\\\\"
  else if c = '\n' then "\\n"
  else if c = '\r' then "\\r"
  else if c = '\t' then "\\t"
  else if c = '<' then "\\u003c"
  else if c = '>' then "\\u003e"
  else if c = '&' then "\\u0026"
  else if c.toNat < 32 then "\\u00" ++ hexDigit (c.toNat / 16) ++ hexDigit (c.toNat % 16)
  else String.singleton c

/-- Go-JSON string literal (quotes included). -/
def jsonString (s : String) : String :=
  "\"" ++ String.join (s.data.map jsonEscapeChar) ++ "\""

/-- `json.Marshal` of a `pubsub.Transaction` value. -/
def jsonMarshal (t : Pubsub.Transaction) : String :=
  "\x7b\"Source\":" ++ jsonString t.source ++
  ",\"Destination\":" ++ jsonString t.destination ++
  ",\"Amount\":" ++ toString t.amount ++
  ",\"Fees\":" ++ toString t.fees ++
  ",\"Hash\":" ++ jsonString t.hash ++ "\x7d"

/-! ## Collaborator calls and environment -/

/-- One observable outward call made during block processing. -/
inductive Effect where
  | isWatchedCall (addr : String)
  | lockCall (key : String)
  | unlockCall (key : String)
  | publishCall (topic : String) (payload : String)
deriving Repr, DecidableEq

/-- Results of the fallible collaborators, as oracles.
`watched` is `addressWatcher.IsWatched`; `lockFails key` is whether
`dlock.Lock` returns an error for `key`; `marshalOk` is whether
`json.Marshal` succeeds on an event; `publishFails payload` is whether
`publisher.Publish` returns an error for a payload (the code only logs that
error). -/
structure Env where
  watched : String → Bool
  lockFails : String → Bool
  marshalOk : Pubsub.Transaction → Bool
  publishFails : String → Bool

/-! ## processBlock (txmonitor_service.go lines 121-180) -/

/-- The event record built from a `blockchain.Transaction`
(txmonitor_service.go lines 143-149): block number excluded. -/
def txEvent (tx : Blockchain.Transaction) : Pubsub.Transaction :=
  ⟨tx.source, tx.destination, tx.amount, tx.fees, tx.hash⟩

/-- `isTransactionRelevant` (line 178-180): `IsWatched(Source) ||
IsWatched(Destination)` with Go's short-circuit `||`, returned together with
the `IsWatched` calls performed. -/
def isTransactionRelevant (env : Env) (tx : Blockchain.Transaction) :
    Bool × List Effect :=
  if env.watched tx.source then (true, [Effect.isWatchedCall tx.source])
  else (env.watched tx.destination,
        [Effect.isWatchedCall tx.source, Effect.isWatchedCall tx.destination])

/-- Effects of one iteration of the transaction loop (lines 134-172):
irrelevant transactions are skipped after the relevance check; a marshal
failure is logged and skips the publish; a publish failure is logged and
ignored (the publish call itself still happens). -/
def processTxEffects (env : Env) (tx : Blockchain.Transaction) : List Effect :=
  let r := isTransactionRelevant env tx
  if !r.1 then r.2
  else if !env.marshalOk (txEvent tx) then r.2
  else r.2 ++ [Effect.publishCall Pubsub.TopicTransaction (jsonMarshal (txEvent tx))]

/-- `processBlock` (lines 121-175): derive the lock key
`"block_lock_" + block.Hash`; on `Lock` error log a warning and return `nil`;
otherwise run the transaction loop and (deferred) `Unlock` with the same key,
returning `nil`.  Result: the returned Go error paired with the ordered call
trace. -/
def processBlock (env : Env) (block : Blockchain.Block) :
    Option String × List Effect :=
  let lockKey := "block_lock_" ++ block.hash
  if env.lockFails lockKey then
    (none, [Effect.lockCall lockKey])
  else
    (none, Effect.lockCall lockKey ::
      (block.transactions.flatMap (processTxEffects env) ++ [Effect.unlockCall lockKey]))

/-- Number of `Publish` calls in a trace. -/
def pubCount (trace : List Effect) : Nat :=
  trace.countP fun e => match e with
    | Effect.publishCall _ _ => true
    | _ => false

/-- Number of `Unlock` calls in a trace. -/
def unlockCount (trace : List Effect) : Nat :=
  trace.countP fun e => match e with
    | Effect.unlockCall _ => true
    | _ => false

/-! ## Lifecycle state machine (txmonitor_service.go lines 24-118, 183-202)

The `txMonitorService` struct state plus the ingestion goroutine are modelled
as a labelled transition system.  One Lean state records:
`isRunning`/`cancelFunc` (here `cancelHeld`), the cancellation flag and
deadline of the current `monitorCtx`, whether the goroutine launched for the
current session is still alive (`curLoop`), the still-alive goroutines of
superseded sessions (`zombieLoops`, each entry recording whether its context
was cancelled when it was superseded), the `sync.WaitGroup` counter
(`inFlight`) and the cumulative number of `SubscribeToBlocks` calls. -/

/-- A caller-supplied `context.Context`, reduced to the one observable fact
the lifecycle could depend on: whether it is already cancelled/expired. -/
structure Ctx where
  cancelled : Bool
deriving Repr, DecidableEq

structure MonitorState where
  isRunning : Bool
  cancelHeld : Bool
  ctxCancelled : Bool
  ctxDeadlineHours : Option Nat
  curLoop : Bool
  zombieLoops : List Bool
  inFlight : Nat
  subs : Nat
deriving Repr, DecidableEq

/-- The zero value of the struct as built by `NewTxMonitorService`
(lines 37-49): not running, no cancel handle, no goroutine, counter zero. -/
def initialState : MonitorState :=
  ⟨false, false, false, none, false, [], 0, 0⟩

/-- `Start` (lines 52-118).  The caller context `c` is received but never
used: if already running return `nil` unchanged; otherwise create
`monitorCtx` from `context.Background()` with a 24-hour timeout, store the
cancel handle, set `isRunning`, call `SubscribeToBlocks` once and launch the
ingestion goroutine.  A still-alive goroutine of a superseded session is kept
as a zombie together with its context-cancellation status. -/
def Start (c : Ctx) (s : MonitorState) : MonitorState :=
  if s.isRunning then s
  else
    { isRunning := true
      cancelHeld := true
      ctxCancelled := false
      ctxDeadlineHours := some 24
      curLoop := true
      zombieLoops := (if s.curLoop then [s.ctxCancelled] else []) ++ s.zombieLoops
      inFlight := s.inFlight
      subs := s.subs + 1 }

/-- First half of `Stop` (lines 183-191): under the mutex, set
`isRunning := false` and invoke the stored cancel handle (a no-op when
`cancelFunc` is `nil`). -/
def stopBeginResult (s : MonitorState) : MonitorState :=
  { s with isRunning := false, ctxCancelled := s.ctxCancelled || s.cancelHeld }

/-- Observable atomic events of the service and its goroutines. -/
inductive Label where
  | startCall (c : Ctx)
  | stopBegin
  | stopReturn
  | blockBegin
  | blockEnd
  | streamError
  | chanClosed
  | ctxDone
  | zombieExit
  | timeoutFire
deriving Repr, DecidableEq

/-- Small-step semantics.  `stopReturn` models `wg.Wait()` returning: it is
enabled exactly when the counter is zero (lines 192-195).  `blockBegin` /
`blockEnd` bracket one synchronous `processBlock` call in the goroutine
(lines 105-112, `wg.Add(1)` / `wg.Done()`).  `streamError`, `chanClosed` and
`ctxDone` are the three goroutine exits of the `select` (lines 81-114); none
of them touches `isRunning`.  `timeoutFire` is the 24-hour context ceiling
expiring. -/
inductive Step : MonitorState → Label → MonitorState → Prop where
  | start (s : MonitorState) (c : Ctx) :
      Step s (Label.startCall c) (Start c s)
  | stopBegin (s : MonitorState) :
      Step s Label.stopBegin (stopBeginResult s)
  | stopReturn (s : MonitorState) (h : s.inFlight = 0) :
      Step s Label.stopReturn s
  | blockBegin (s : MonitorState) (h : s.curLoop = true ∨ s.zombieLoops ≠ []) :
      Step s Label.blockBegin { s with inFlight := s.inFlight + 1 }
  | blockEnd (s : MonitorState) (h : 0 < s.inFlight) :
      Step s Label.blockEnd { s with inFlight := s.inFlight - 1 }
  | streamError (s : MonitorState) (h : s.curLoop = true) :
      Step s Label.streamError { s with curLoop := false }
  | chanClosed (s : MonitorState) (h : s.curLoop = true) :
      Step s Label.chanClosed { s with curLoop := false }
  | ctxDone (s : MonitorState) (h : s.curLoop = true)
      (hc : s.ctxCancelled = true) :
      Step s Label.ctxDone { s with curLoop := false }
  | zombieExit (s : MonitorState) (b : Bool) (h : b ∈ s.zombieLoops) :
      Step s Label.zombieExit { s with zombieLoops := s.zombieLoops.erase b }
  | timeoutFire (s : MonitorState) (h : s.ctxDeadlineHours ≠ none) :
      Step s Label.timeoutFire { s with ctxCancelled := true }

/-- States reachable from the freshly constructed service. -/
inductive Reachable : MonitorState → Prop where
  | init : Reachable initialState
  | step (s : MonitorState) (l : Label) (s₂ : MonitorState) :
      Reachable s → Step s l s₂ → Reachable s₂

/-- States reachable without any `Stop` call. -/
inductive ReachableNoStop : MonitorState → Prop where
  | init : ReachableNoStop initialState
  | step (s : MonitorState) (l : Label) (s₂ : MonitorState) :
      ReachableNoStop s → l ≠ Label.stopBegin → Step s l s₂ →
      ReachableNoStop s₂

/-- Number of ingestion goroutines currently alive. -/
def loopsAlive (s : MonitorState) : Nat :=
  (if s.curLoop then 1 else 0) + s.zombieLoops.length

/-- Number of alive ingestion goroutines whose context is not cancelled. -/
def activeLoops (s : MonitorState) : Nat :=
  (if s.curLoop && !s.ctxCancelled then 1 else 0) +
    s.zombieLoops.countP (fun c => !c)

/-! ## In-memory address watcher (internal/address/address_watcher.go)

The `map[string]bool` is embedded as its lookup function: a read of a
missing key yields `false`, `AddAddresses` stores `true` for each listed
address, `RemoveAddresses` deletes each listed address. -/

namespace Address

/-- `NewInMemoryAddressWatcher`: the empty map. -/
def emptyWatcher : String → Bool := fun _ => false

/-- `IsWatched` (lines 39-43): map lookup. -/
def IsWatched (w : String → Bool) (address : String) : Bool := w address

/-- `AddAddresses` (lines 45-51): `m[address] = true` for each address. -/
def AddAddresses (w : String → Bool) (addresses : List String) :
    String → Bool :=
  addresses.foldl (fun acc a => fun x => if x = a then true else acc x) w

/-- `RemoveAddresses` (lines 53-59): `delete(m, address)` for each address. -/
def RemoveAddresses (w : String → Bool) (addresses : List String) :
    String → Bool :=
  addresses.foldl (fun acc a => fun x => if x = a then false else acc x) w

/-- A control-plane operation on the watcher. -/
inductive WatchOp where
  | add (addresses : List String)
  | remove (addresses : List String)
deriving Repr, DecidableEq

/-- Apply one operation. -/
def applyOp (w : String → Bool) : WatchOp → (String → Bool)
  | WatchOp.add as => AddAddresses w as
  | WatchOp.remove as => RemoveAddresses w as

/-- Apply a sequence of operations in order. -/
def applyOps (ops : List WatchOp) (w : String → Bool) : String → Bool :=
  ops.foldl applyOp w

/-- Whether an operation adds the address `b`. -/
def addsAddr (b : String) : WatchOp → Bool
  | WatchOp.add as => as.contains b
  | WatchOp.remove _ => false

end Address

/-! ## Concrete scenario data (spec section 8) -/

/-- The scenario transaction tx1. -/
def scenarioTx : Blockchain.Transaction :=
  ⟨"0x1234", "0x5678", 100, 10, "tx1hash", 100⟩

/-- The scenario block `block123` with the single transaction tx1. -/
def scenarioBlock : Blockchain.Block :=
  ⟨100, "block123", 0, 0, [scenarioTx]⟩

/-- Scenario environment: watched set is exactly `0x5678`, the lock is
acquired, marshalling succeeds, publishing succeeds. -/
def scenarioEnv : Env :=
  ⟨fun a => a == "0x5678", fun _ => false, fun _ => true, fun _ => false⟩

/-! ## Lemmas about the transaction loop -/

theorem pubCount_append (l₁ l₂ : List Effect) :
    pubCount (l₁ ++ l₂) = pubCount l₁ + pubCount l₂ := by
  simp [pubCount, List.countP_append]

theorem unlockCount_append (l₁ l₂ : List Effect) :
    unlockCount (l₁ ++ l₂) = unlockCount l₁ + unlockCount l₂ := by
  simp [unlockCount, List.countP_append]

/-- Publishes performed for one transaction, when marshalling succeeds:
one if the transaction is relevant, zero otherwise. -/
theorem pubCount_processTxEffects (env : Env) (tx : Blockchain.Transaction)
    (hm : env.marshalOk (txEvent tx) = true) :
    pubCount (processTxEffects env tx)
      = if env.watched tx.source || env.watched tx.destination then 1 else 0 := by
  unfold processTxEffects isTransactionRelevant
  cases hs : env.watched tx.source <;>
    cases hd : env.watched tx.destination <;>
      simp [hs, hd, hm, pubCount]

/-- The transaction loop never calls `Lock` or `Unlock`. -/
theorem processTxEffects_shape (env : Env) (tx : Blockchain.Transaction) :
    ∀ e ∈ processTxEffects env tx,
      e = Effect.isWatchedCall tx.source
      ∨ e = Effect.isWatchedCall tx.destination
      ∨ e = Effect.publishCall Pubsub.TopicTransaction (jsonMarshal (txEvent tx)) := by
  unfold processTxEffects isTransactionRelevant
  cases hs : env.watched tx.source <;>
    cases hm : env.marshalOk (txEvent tx) <;>
      cases hd : env.watched tx.destination <;>
        simp [hs, hm, hd]

/-- Publish count over a transaction list, when marshalling succeeds. -/
theorem pubCount_flatMap (env : Env) (ts : List Blockchain.Transaction)
    (hm : ∀ e, env.marshalOk e = true) :
    pubCount (ts.flatMap (processTxEffects env))
      = ts.countP (fun tx => env.watched tx.source || env.watched tx.destination) := by
  induction ts with
  | nil => simp [pubCount]
  | cons t ts ih =>
      rw [List.flatMap_cons, pubCount_append, ih,
        pubCount_processTxEffects env t (hm _), List.countP_cons]
      cases h : (env.watched t.source || env.watched t.destination) <;> simp [h] <;> omega

/-- The transaction loop performs no `Unlock`. -/
theorem unlockCount_flatMap (env : Env) (ts : List Blockchain.Transaction) :
    unlockCount (ts.flatMap (processTxEffects env)) = 0 := by
  induction ts with
  | nil => simp [unlockCount]
  | cons t ts ih =>
      rw [List.flatMap_cons, unlockCount_append, ih]
      have h := processTxEffects_shape env t
      have : unlockCount (processTxEffects env t) = 0 := by
        unfold unlockCount
        rw [List.countP_eq_zero]
        intro e he
        rcases h e he with h1 | h1 | h1 <;> simp [h1]
      omega

/-- `processBlock` returns the Go error `nil` on every input: both the
lock-contention branch and the full processing path end in `return nil`. -/
theorem processBlock_returns_nil (env : Env) (block : Blockchain.Block) :
    (processBlock env block).1 = none := by
  cases h : env.lockFails ("block_lock_" ++ block.hash) <;>
    simp [processBlock, h]

theorem pubCount_cons_lock (k : String) (l : List Effect) :
    pubCount (Effect.lockCall k :: l) = pubCount l := by
  simp [pubCount, List.countP_cons]

/-- C3: for every block and watched-address set (with the lock acquired and
serialization succeeding, the processing pathway), `processBlock` publishes
one event per transaction whose source or destination is watched and none
for the others; a transaction with both endpoints watched is published
exactly once, and one with neither endpoint watched contributes only its two
`IsWatched` checks - no publish and no other side effect. -/
theorem processBlock_publishes_iff_relevant (env : Env) (block : Blockchain.Block)
    (hm : ∀ e, env.marshalOk e = true)
    (hl : env.lockFails ("block_lock_" ++ block.hash) = false) :
    pubCount (processBlock env block).2
        = block.transactions.countP
            (fun tx => env.watched tx.source || env.watched tx.destination)
      ∧ (∀ tx : Blockchain.Transaction,
          env.watched tx.source = true → env.watched tx.destination = true →
          pubCount (processTxEffects env tx) = 1)
      ∧ (∀ tx : Blockchain.Transaction,
          env.watched tx.source = false → env.watched tx.destination = false →
          processTxEffects env tx
            = [Effect.isWatchedCall tx.source, Effect.isWatchedCall tx.destination]) := by
  refine ⟨?_, ?_, ?_⟩
  · simp only [processBlock, hl, Bool.false_eq_true, if_false]
    rw [pubCount_cons_lock, pubCount_append, pubCount_flatMap env _ hm]
    simp [pubCount]
  · intro tx h1 h2
    rw [pubCount_processTxEffects env tx (hm _)]
    simp [h1, h2]
  · intro tx h1 h2
    unfold processTxEffects isTransactionRelevant
    simp [h1, h2]

theorem processBlock_publishes_iff_relevant_witness :
    (∀ e, scenarioEnv.marshalOk e = true)
  ∧ scenarioEnv.lockFails ("block_lock_" ++ scenarioBlock.hash) = false
  ∧ pubCount (processBlock scenarioEnv scenarioBlock).2
      = scenarioBlock.transactions.countP
          (fun tx => scenarioEnv.watched tx.source || scenarioEnv.watched tx.destination) :=
  ⟨fun _ => rfl, rfl,
    (processBlock_publishes_iff_relevant scenarioEnv scenarioBlock (fun _ => rfl) rfl).1⟩

/-- C4: if `Lock` returns an error for a block, `processBlock` returns `nil`
and the only collaborator call made is that `Lock` attempt - no `IsWatched`,
`Publish` or `Unlock` call occurs and no error is propagated. -/
theorem processBlock_lock_contention (env : Env) (block : Blockchain.Block)
    (h : env.lockFails ("block_lock_" ++ block.hash) = true) :
    processBlock env block
      = (none, [Effect.lockCall ("block_lock_" ++ block.hash)]) := by
  simp [processBlock, h]

/-- Environment in which every lock acquisition fails. -/
def contentionEnv : Env :=
  ⟨fun a => a == "0x5678", fun _ => true, fun _ => true, fun _ => false⟩

theorem processBlock_lock_contention_witness :
    contentionEnv.lockFails ("block_lock_" ++ scenarioBlock.hash) = true
  ∧ processBlock contentionEnv scenarioBlock
      = (none, [Effect.lockCall ("block_lock_" ++ scenarioBlock.hash)]) :=
  ⟨rfl, processBlock_lock_contention contentionEnv scenarioBlock rfl⟩

/-- C5: a serialization or publish failure on one relevant transaction never
aborts the rest of the block: the block still returns `nil`, the trace
decomposes so the transactions after the failing one contribute exactly the
effects they would contribute in isolation (still tested, and published when
relevant and serializable), and the whole trace is independent of the
publish results. -/
theorem processBlock_failure_isolated (env : Env) (block : Blockchain.Block)
    (pre post : List Blockchain.Transaction) (t : Blockchain.Transaction)
    (hts : block.transactions = pre ++ t :: post)
    (hl : env.lockFails ("block_lock_" ++ block.hash) = false)
    (hrel : env.watched t.source = true ∨ env.watched t.destination = true)
    (hfail : env.marshalOk (txEvent t) = false
      ∨ env.publishFails (jsonMarshal (txEvent t)) = true) :
    (processBlock env block).1 = none
      ∧ (processBlock env block).2
          = Effect.lockCall ("block_lock_" ++ block.hash) ::
              (pre.flatMap (processTxEffects env) ++ processTxEffects env t ++
                post.flatMap (processTxEffects env) ++
                [Effect.unlockCall ("block_lock_" ++ block.hash)])
      ∧ (∀ pf, processBlock { env with publishFails := pf } block
          = processBlock env block)
      ∧ (∀ u, u ∈ post →
          (env.watched u.source || env.watched u.destination) = true →
          env.marshalOk (txEvent u) = true →
          pubCount (processTxEffects env u) = 1) := by
  refine ⟨processBlock_returns_nil env block, ?_, fun pf => rfl, ?_⟩
  · simp [processBlock, hl, hts]
  · intro u _ hu hm
    rw [pubCount_processTxEffects env u hm]
    simp [hu]

/-- Relevant transaction whose publish fails in `failEnv`. -/
def failTx : Blockchain.Transaction := ⟨"0x5678", "0x9999", 1, 1, "txA", 100⟩

/-- Relevant transaction after the failing one. -/
def postTx : Blockchain.Transaction := ⟨"0x5678", "0x8888", 2, 1, "txB", 100⟩

/-- Block containing the failing transaction followed by another. -/
def failBlock : Blockchain.Block := ⟨100, "blockF", 0, 0, [failTx, postTx]⟩

/-- Environment where exactly the payload of `failTx` fails to publish. -/
def failEnv : Env :=
  ⟨fun a => a == "0x5678", fun _ => false, fun _ => true,
   fun p => p == jsonMarshal (txEvent failTx)⟩

theorem processBlock_failure_isolated_witness :
    failBlock.transactions = [] ++ failTx :: [postTx]
  ∧ failEnv.lockFails ("block_lock_" ++ failBlock.hash) = false
  ∧ failEnv.watched failTx.source = true
  ∧ failEnv.publishFails (jsonMarshal (txEvent failTx)) = true
  ∧ (processBlock failEnv failBlock).1 = none :=
  ⟨rfl, rfl, rfl, by simp [failEnv],
    (processBlock_failure_isolated failEnv failBlock [] [postTx] failTx rfl rfl
      (Or.inl rfl) (Or.inr (by simp [failEnv]))).1⟩

/-- Shape of every element of a block's call trace. -/
theorem mem_processBlock_trace (env : Env) (block : Blockchain.Block)
    (e : Effect) (he : e ∈ (processBlock env block).2) :
    e = Effect.lockCall ("block_lock_" ++ block.hash)
  ∨ e = Effect.unlockCall ("block_lock_" ++ block.hash)
  ∨ (∃ tx, tx ∈ block.transactions ∧
      (e = Effect.isWatchedCall tx.source
        ∨ e = Effect.isWatchedCall tx.destination
        ∨ e = Effect.publishCall Pubsub.TopicTransaction
              (jsonMarshal (txEvent tx)))) := by
  cases h : env.lockFails ("block_lock_" ++ block.hash)
  · have htr : (processBlock env block).2
        = Effect.lockCall ("block_lock_" ++ block.hash) ::
            (block.transactions.flatMap (processTxEffects env) ++
              [Effect.unlockCall ("block_lock_" ++ block.hash)]) := by
      simp [processBlock, h]
    rw [htr, List.mem_cons] at he
    rcases he with he | he
    · exact Or.inl he
    · rw [List.mem_append] at he
      rcases he with he | he
      · rw [List.mem_flatMap] at he
        rcases he with ⟨tx, htx, hetx⟩
        exact Or.inr (Or.inr ⟨tx, htx, processTxEffects_shape env tx e hetx⟩)
      · rw [List.mem_singleton] at he
        exact Or.inr (Or.inl he)
  · have htr : (processBlock env block).2
        = [Effect.lockCall ("block_lock_" ++ block.hash)] := by
      simp [processBlock, h]
    rw [htr, List.mem_singleton] at he
    exact Or.inl he

/-- C6: every `Lock`/`Unlock` key in a block's trace is exactly
`"block_lock_" + block.hash`; every published event goes to the fixed topic
and its payload is the JSON serialization of the five-field event record
built from some transaction of the block (block number excluded); and the
spec scenario produces exactly one publish with the expected payload bytes,
bracketed by the lock and unlock of `"block_lock_block123"`. -/
theorem processBlock_key_topic_payload (env : Env) (block : Blockchain.Block) :
    (∀ k, Effect.lockCall k ∈ (processBlock env block).2 →
      k = "block_lock_" ++ block.hash)
  ∧ (∀ k, Effect.unlockCall k ∈ (processBlock env block).2 →
      k = "block_lock_" ++ block.hash)
  ∧ (∀ topic payload,
      Effect.publishCall topic payload ∈ (processBlock env block).2 →
      topic = Pubsub.TopicTransaction
        ∧ ∃ tx, tx ∈ block.transactions ∧ payload = jsonMarshal (txEvent tx))
  ∧ processBlock scenarioEnv scenarioBlock
      = (none,
         [Effect.lockCall "block_lock_block123",
          Effect.isWatchedCall "0x1234",
          Effect.isWatchedCall "0x5678",
          Effect.publishCall "transaction"
            ("\x7b\"Source\":\"0x1234\",\"Destination\":\"0x5678\"," ++
             "\"Amount\":100,\"Fees\":10,\"Hash\":\"tx1hash\"\x7d"),
          Effect.unlockCall "block_lock_block123"]) := by
  refine ⟨?_, ?_, ?_, ?_⟩
  · intro k hk
    rcases mem_processBlock_trace env block _ hk with h1 | h1 | ⟨tx, _, h1 | h1 | h1⟩
    · simpa using h1
    · exact absurd h1 (by simp)
    · exact absurd h1 (by simp)
    · exact absurd h1 (by simp)
    · exact absurd h1 (by simp)
  · intro k hk
    rcases mem_processBlock_trace env block _ hk with h1 | h1 | ⟨tx, _, h1 | h1 | h1⟩
    · exact absurd h1 (by simp)
    · simpa using h1
    · exact absurd h1 (by simp)
    · exact absurd h1 (by simp)
    · exact absurd h1 (by simp)
  · intro topic payload hk
    rcases mem_processBlock_trace env block _ hk with h1 | h1 | ⟨tx, htx, h1 | h1 | h1⟩
    · exact absurd h1 (by simp)
    · exact absurd h1 (by simp)
    · exact absurd h1 (by simp)
    · exact absurd h1 (by simp)
    · simp only [Effect.publishCall.injEq] at h1
      exact ⟨h1.1, tx, htx, h1.2⟩
  · rfl

theorem processBlock_key_topic_payload_witness :
    Effect.publishCall "transaction"
        ("\x7b\"Source\":\"0x1234\",\"Destination\":\"0x5678\"," ++
         "\"Amount\":100,\"Fees\":10,\"Hash\":\"tx1hash\"\x7d")
      ∈ (processBlock scenarioEnv scenarioBlock).2
  ∧ "transaction" = Pubsub.TopicTransaction
  ∧ ∃ tx, tx ∈ scenarioBlock.transactions
      ∧ ("\x7b\"Source\":\"0x1234\",\"Destination\":\"0x5678\"," ++
         "\"Amount\":100,\"Fees\":10,\"Hash\":\"tx1hash\"\x7d")
          = jsonMarshal (txEvent tx) := by
  have hmem : Effect.publishCall "transaction"
      ("\x7b\"Source\":\"0x1234\",\"Destination\":\"0x5678\"," ++
       "\"Amount\":100,\"Fees\":10,\"Hash\":\"tx1hash\"\x7d")
      ∈ (processBlock scenarioEnv scenarioBlock).2 := by decide
  have h := (processBlock_key_topic_payload scenarioEnv scenarioBlock).2.2.1
    "transaction" _ hmem
  exact ⟨hmem, h.1, h.2⟩

/-- C7: whenever `Lock` succeeds, `Unlock` is called exactly once, with the
same key, as the final action before `processBlock` returns `nil` -
regardless of serialization or publish failures; a zero-transaction block
produces exactly the lock/unlock pair and nothing else. -/
theorem processBlock_unlock_once (env : Env) (block : Blockchain.Block)
    (h : env.lockFails ("block_lock_" ++ block.hash) = false) :
    unlockCount (processBlock env block).2 = 1
  ∧ (processBlock env block).2.getLast?
      = some (Effect.unlockCall ("block_lock_" ++ block.hash))
  ∧ (processBlock env block).1 = none
  ∧ (block.transactions = [] →
      (processBlock env block).2
        = [Effect.lockCall ("block_lock_" ++ block.hash),
           Effect.unlockCall ("block_lock_" ++ block.hash)]) := by
  refine ⟨?_, ?_, processBlock_returns_nil env block, ?_⟩
  · simp only [processBlock, h, Bool.false_eq_true, if_false]
    rw [show unlockCount (Effect.lockCall ("block_lock_" ++ block.hash) ::
          (block.transactions.flatMap (processTxEffects env) ++
            [Effect.unlockCall ("block_lock_" ++ block.hash)]))
        = unlockCount (block.transactions.flatMap (processTxEffects env)) +
            unlockCount [Effect.unlockCall ("block_lock_" ++ block.hash)] by
      simp [unlockCount, List.countP_cons, List.countP_append]]
    rw [unlockCount_flatMap]
    simp [unlockCount]
  · simp only [processBlock, h, Bool.false_eq_true, if_false]
    rw [show Effect.lockCall ("block_lock_" ++ block.hash) ::
          (block.transactions.flatMap (processTxEffects env) ++
            [Effect.unlockCall ("block_lock_" ++ block.hash)])
        = (Effect.lockCall ("block_lock_" ++ block.hash) ::
            block.transactions.flatMap (processTxEffects env)) ++
            [Effect.unlockCall ("block_lock_" ++ block.hash)] by simp]
    exact List.getLast?_concat _
  · intro he
    simp [processBlock, h, he]

/-- Block `blockE` carrying no transactions. -/
def emptyBlock : Blockchain.Block := ⟨1, "blockE", 0, 0, []⟩

theorem processBlock_unlock_once_witness :
    scenarioEnv.lockFails ("block_lock_" ++ emptyBlock.hash) = false
  ∧ emptyBlock.transactions = []
  ∧ (processBlock scenarioEnv emptyBlock).2
      = [Effect.lockCall ("block_lock_" ++ emptyBlock.hash),
         Effect.unlockCall ("block_lock_" ++ emptyBlock.hash)] :=
  ⟨rfl, rfl,
    (processBlock_unlock_once scenarioEnv emptyBlock rfl).2.2.2 rfl⟩

/-! ## Lifecycle theorems -/

/-- C1: `Stop` first invokes the stored cancellation handle (a no-op when
none is held), marks the controller idle, and its `wg.Wait` step can return
only in a state with zero in-flight `processBlock` invocations - so `Stop`
never returns while one is still executing; when nothing is in flight (in
particular on an already-idle controller) the wait is enabled immediately
and `Stop` returns success. -/
theorem Stop_cancels_drains_idles (s s₁ s₂ : MonitorState)
    (h₁ : Step s Label.stopBegin s₁) (h₂ : Step s₁ Label.stopReturn s₂) :
    s₁.ctxCancelled = (s.ctxCancelled || s.cancelHeld)
  ∧ s₂.isRunning = false
  ∧ s₂.inFlight = 0
  ∧ (∀ t t₂ : MonitorState, Step t Label.stopReturn t₂ → t.inFlight = 0)
  ∧ (s.inFlight = 0 → Step s₁ Label.stopReturn s₁) := by
  cases h₁
  cases h₂ with
  | stopReturn h =>
      refine ⟨rfl, rfl, h, ?_, ?_⟩
      · intro t t₂ ht
        cases ht with
        | stopReturn h => exact h
      · intro h0
        exact Step.stopReturn _ h0

theorem Stop_cancels_drains_idles_witness :
    (stopBeginResult initialState).ctxCancelled
        = (initialState.ctxCancelled || initialState.cancelHeld)
  ∧ (stopBeginResult initialState).isRunning = false
  ∧ (stopBeginResult initialState).inFlight = 0
  ∧ (∀ t t₂ : MonitorState, Step t Label.stopReturn t₂ → t.inFlight = 0)
  ∧ (initialState.inFlight = 0 →
      Step (stopBeginResult initialState) Label.stopReturn
        (stopBeginResult initialState)) :=
  Stop_cancels_drains_idles initialState (stopBeginResult initialState)
    (stopBeginResult initialState) (Step.stopBegin initialState)
    (Step.stopReturn _ rfl)

/-- Invariant of stop-free executions: the service never holds a superseded
goroutine, and it has subscribed at most once - exactly once if and only if
it is marked running. -/
theorem noStop_invariant (s : MonitorState) (h : ReachableNoStop s) :
    s.zombieLoops = []
  ∧ ((s.isRunning = false ∧ s.curLoop = false ∧ s.subs = 0)
      ∨ (s.isRunning = true ∧ s.subs = 1)) := by
  induction h with
  | init => exact ⟨rfl, Or.inl ⟨rfl, rfl, rfl⟩⟩
  | step s l s₂ h hl hs ih =>
      cases hs with
      | start c =>
          unfold Start
          rcases ih.2 with ⟨h1, h2, h3⟩ | ⟨h1, h3⟩
          · simp [h1, h2, h3, ih.1]
          · simp [h1, h3, ih.1]
      | stopBegin => exact absurd rfl hl
      | stopReturn h0 => exact ih
      | blockBegin h0 => exact ih
      | blockEnd h0 => exact ih
      | streamError h0 =>
          refine ⟨ih.1, ?_⟩
          rcases ih.2 with ⟨h1, h2, h3⟩ | ⟨h1, h3⟩
          · exact absurd h0 (by simp [h2])
          · exact Or.inr ⟨h1, h3⟩
      | chanClosed h0 =>
          refine ⟨ih.1, ?_⟩
          rcases ih.2 with ⟨h1, h2, h3⟩ | ⟨h1, h3⟩
          · exact absurd h0 (by simp [h2])
          · exact Or.inr ⟨h1, h3⟩
      | ctxDone h0 hc =>
          refine ⟨ih.1, ?_⟩
          rcases ih.2 with ⟨h1, h2, h3⟩ | ⟨h1, h3⟩
          · exact absurd h0 (by simp [h2])
          · exact Or.inr ⟨h1, h3⟩
      | zombieExit b h0 => exact absurd h0 (by simp [ih.1])
      | timeoutFire h0 => exact ih

/-- C2: `Start` on a running monitor is a complete no-op (same state, no
subscription, no goroutine); starting twice from the fresh service without a
`Stop` yields one `SubscribeToBlocks` call and one alive ingestion
goroutine; and along any stop-free execution at most one ingestion goroutine
is alive and at most one subscription has been made. -/
theorem Start_idempotent_one_loop :
    (∀ (s : MonitorState) (c : Ctx), s.isRunning = true → Start c s = s)
  ∧ (∀ c₁ c₂ : Ctx,
      Start c₂ (Start c₁ initialState) = Start c₁ initialState
        ∧ (Start c₁ initialState).subs = 1
        ∧ loopsAlive (Start c₁ initialState) = 1)
  ∧ (∀ s : MonitorState, ReachableNoStop s →
      loopsAlive s ≤ 1 ∧ s.subs ≤ 1) := by
  refine ⟨?_, ?_, ?_⟩
  · intro s c h
    simp [Start, h]
  · intro c₁ c₂
    refine ⟨?_, rfl, rfl⟩
    simp [Start, initialState]
  · intro s h
    rcases noStop_invariant s h with ⟨hz, hd⟩
    unfold loopsAlive
    rw [hz]
    rcases hd with ⟨_, h2, h3⟩ | ⟨_, h3⟩
    · simp [h2, h3]
    · rw [h3]
      cases s.curLoop <;> simp

theorem Start_idempotent_one_loop_witness :
    (Start ⟨false⟩ initialState).isRunning = true
  ∧ Start ⟨true⟩ (Start ⟨false⟩ initialState) = Start ⟨false⟩ initialState
  ∧ loopsAlive (Start ⟨false⟩ initialState) = 1 :=
  ⟨rfl,
    Start_idempotent_one_loop.1 (Start ⟨false⟩ initialState) ⟨true⟩ rfl,
    (Start_idempotent_one_loop.2.1 ⟨false⟩ ⟨true⟩).2.2⟩

/-- Invariant: whenever the monitor is marked running, a cancellation handle
is stored. -/
theorem running_implies_cancelHeld (s : MonitorState) (h : Reachable s) :
    s.isRunning = true → s.cancelHeld = true := by
  induction h with
  | init => intro h0; cases h0
  | step s l s₂ h hs ih =>
      cases hs with
      | start c =>
          unfold Start
          cases hr : s.isRunning <;> simp [hr, ih]
      | stopBegin => intro h0; cases h0
      | stopReturn h0 => exact ih
      | blockBegin h0 => exact ih
      | blockEnd h0 => exact ih
      | streamError h0 => exact ih
      | chanClosed h0 => exact ih
      | ctxDone h0 hc => exact ih
      | zombieExit b h0 => exact ih
      | timeoutFire h0 => exact ih

/-- The state after `Start` on the fresh service. -/
def afterStart : MonitorState := Start ⟨false⟩ initialState

/-- `afterStart` after the ingestion goroutine exits on a stream error. -/
def afterStreamError : MonitorState := { afterStart with curLoop := false }

/-- C8 counterexample: after `Start` followed by a stream error, the
ingestion goroutine has fully exited while a cancellation token is held, yet
`isRunning` is still `true` - refuting the claimed equivalence, whose
right-hand side is false here while `running` is true. -/
theorem running_not_iff_loop_alive :
    Reachable afterStreamError
  ∧ afterStreamError.isRunning = true
  ∧ afterStreamError.cancelHeld = true
  ∧ loopsAlive afterStreamError = 0 :=
  ⟨Reachable.step afterStart Label.streamError afterStreamError
      (Reachable.step initialState (Label.startCall ⟨false⟩) afterStart
        Reachable.init (Step.start initialState ⟨false⟩))
      (Step.streamError afterStart rfl),
    rfl, rfl, rfl⟩

/-- C8 amended: `running` does not track goroutine exit.  `running` can
become false only through `Stop`; the goroutine exits on stream error or
channel close leave `running` unchanged (hence true); and in every reachable
running state a cancellation token is held - the left-to-right direction of
the original claim that survives. -/
theorem running_only_cleared_by_stop (s : MonitorState) (l : Label)
    (s₂ : MonitorState) (hs : Step s l s₂) :
    (s₂.isRunning = false → s.isRunning = false ∨ l = Label.stopBegin)
  ∧ ((l = Label.streamError ∨ l = Label.chanClosed ∨ l = Label.ctxDone) →
      s₂.isRunning = s.isRunning)
  ∧ (Reachable s → s.isRunning = true → s.cancelHeld = true) := by
  refine ⟨?_, ?_, fun hr => running_implies_cancelHeld s hr⟩
  · intro h0
    cases hs with
    | start c =>
        unfold Start at h0
        cases hr : s.isRunning
        · exact Or.inl rfl
        · rw [hr] at h0
          simp at h0
          exact absurd hr (by simp [h0])
    | stopBegin => exact Or.inr rfl
    | stopReturn h => exact Or.inl h0
    | blockBegin h => exact Or.inl h0
    | blockEnd h => exact Or.inl h0
    | streamError h => exact Or.inl h0
    | chanClosed h => exact Or.inl h0
    | ctxDone h hc => exact Or.inl h0
    | zombieExit b h => exact Or.inl h0
    | timeoutFire h => exact Or.inl h0
  · intro hl
    cases hs <;> first
      | rfl
      | (rcases hl with h | h | h <;> cases h)

theorem running_only_cleared_by_stop_witness :
    (afterStreamError.isRunning = afterStart.isRunning)
  ∧ (Reachable afterStart → afterStart.isRunning = true →
      afterStart.cancelHeld = true) :=
  ⟨(running_only_cleared_by_stop afterStart Label.streamError afterStreamError
      (Step.streamError afterStart rfl)).2.1 (Or.inl rfl),
    (running_only_cleared_by_stop afterStart Label.streamError afterStreamError
      (Step.streamError afterStart rfl)).2.2⟩

/-- C10: `Start` is independent of its caller context - two calls with any
two caller contexts (cancelled or not) produce identical states; when it
launches, the monitoring context is fresh (uncancelled) with the fixed
24-hour ceiling regardless of the caller context; and the monitoring context
becomes cancelled only through `Stop` or the ceiling expiring, and the
ingestion goroutine stops only by stream error, channel close, or observing
that cancellation - never because the caller context was cancelled. -/
theorem Start_independent_of_caller_ctx :
    (∀ (c₁ c₂ : Ctx) (s : MonitorState), Start c₁ s = Start c₂ s)
  ∧ (∀ (c : Ctx) (s : MonitorState), s.isRunning = false →
      (Start c s).ctxCancelled = false
        ∧ (Start c s).ctxDeadlineHours = some 24
        ∧ (Start c s).isRunning = true
        ∧ (Start c s).subs = s.subs + 1)
  ∧ (∀ (s : MonitorState) (l : Label) (s₂ : MonitorState), Step s l s₂ →
      s₂.ctxCancelled = true → s.ctxCancelled = true
        ∨ l = Label.stopBegin ∨ l = Label.timeoutFire)
  ∧ (∀ (s : MonitorState) (l : Label) (s₂ : MonitorState), Step s l s₂ →
      s₂.curLoop = false → s.curLoop = false
        ∨ l = Label.streamError ∨ l = Label.chanClosed ∨ l = Label.ctxDone) := by
  refine ⟨fun c₁ c₂ s => rfl, ?_, ?_, ?_⟩
  · intro c s h
    simp [Start, h]
  · intro s l s₂ hs h0
    cases hs with
    | start c =>
        unfold Start at h0
        cases hr : s.isRunning
        · rw [hr] at h0
          simp at h0
        · rw [hr] at h0
          exact Or.inl h0
    | stopBegin => exact Or.inr (Or.inl rfl)
    | stopReturn h => exact Or.inl h0
    | blockBegin h => exact Or.inl h0
    | blockEnd h => exact Or.inl h0
    | streamError h => exact Or.inl h0
    | chanClosed h => exact Or.inl h0
    | ctxDone h hc => exact Or.inl h0
    | zombieExit b h => exact Or.inl h0
    | timeoutFire h => exact Or.inr (Or.inr rfl)
  · intro s l s₂ hs h0
    cases hs with
    | start c =>
        unfold Start at h0
        cases hr : s.isRunning
        · rw [hr] at h0
          simp at h0
        · rw [hr] at h0
          exact Or.inl h0
    | stopBegin => exact Or.inl h0
    | stopReturn h => exact Or.inl h0
    | blockBegin h => exact Or.inl h0
    | blockEnd h => exact Or.inl h0
    | streamError h => exact Or.inr (Or.inl rfl)
    | chanClosed h => exact Or.inr (Or.inr (Or.inl rfl))
    | ctxDone h hc => exact Or.inr (Or.inr (Or.inr rfl))
    | zombieExit b h => exact Or.inl h0
    | timeoutFire h => exact Or.inl h0

theorem Start_independent_of_caller_ctx_witness :
    initialState.isRunning = false
  ∧ Start ⟨true⟩ initialState = Start ⟨false⟩ initialState
  ∧ (Start ⟨true⟩ initialState).ctxCancelled = false
  ∧ (Start ⟨true⟩ initialState).ctxDeadlineHours = some 24 :=
  ⟨rfl, Start_independent_of_caller_ctx.1 ⟨true⟩ ⟨false⟩ initialState,
    (Start_independent_of_caller_ctx.2.1 ⟨true⟩ initialState rfl).1,
    (Start_independent_of_caller_ctx.2.1 ⟨true⟩ initialState rfl).2.1⟩

/-! ## Address watcher theorems -/

/-- Lookup after `AddAddresses`: an address reads `true` exactly when it was
already present or occurs in the added list (literal string equality). -/
theorem AddAddresses_lookup (w : String → Bool) (as : List String) (b : String) :
    Address.AddAddresses w as b = (w b || as.contains b) := by
  induction as generalizing w with
  | nil => simp [Address.AddAddresses]
  | cons a as ih =>
      show Address.AddAddresses (fun x => if x = a then true else w x) as b = _
      rw [ih]
      by_cases h : b = a <;> simp [h]

/-- Lookup after `RemoveAddresses`: an address reads `true` exactly when it
was present and does not occur in the removed list. -/
theorem RemoveAddresses_lookup (w : String → Bool) (as : List String) (b : String) :
    Address.RemoveAddresses w as b = (!as.contains b && w b) := by
  induction as generalizing w with
  | nil => simp [Address.RemoveAddresses]
  | cons a as ih =>
      show Address.RemoveAddresses (fun x => if x = a then false else w x) as b = _
      rw [ih]
      by_cases h : b = a <;> simp [h]

/-- A string that no operation of the history ever added is never watched. -/
theorem applyOps_not_added (ops : List Address.WatchOp) (b : String) :
    ∀ w : String → Bool, w b = false →
    (∀ op ∈ ops, Address.addsAddr b op = false) →
    Address.applyOps ops w b = false := by
  induction ops with
  | nil => intro w hw _; exact hw
  | cons op ops ih =>
      intro w hw h
      have hop : Address.addsAddr b op = false := h op (List.mem_cons_self op ops)
      have hans : Address.applyOp w op b = false := by
        cases op with
        | add as =>
            have hbc : as.contains b = false := hop
            simp [Address.applyOp, AddAddresses_lookup, hw]
            intro hm
            simp [List.contains_eq_any_beq] at hbc
            exact hbc hm
        | remove as =>
            simp [Address.applyOp, RemoveAddresses_lookup, hw]
      exact ih (Address.applyOp w op) hans
        (fun o ho => h o (List.mem_cons_of_mem op ho))

/-- C9: adding an address makes `IsWatched` of it true; a subsequent removal
makes it false; adding an address changes no other key, and any string never
added over an arbitrary operation history - including a case variant of a
watched address, since membership is literal case-sensitive equality - is
not watched. -/
theorem watcher_membership (w : String → Bool) (A : String) :
    Address.IsWatched (Address.AddAddresses w [A]) A = true
  ∧ Address.IsWatched
      (Address.RemoveAddresses (Address.AddAddresses w [A]) [A]) A = false
  ∧ (∀ B, B ≠ A →
      Address.IsWatched (Address.AddAddresses w [A]) B = Address.IsWatched w B)
  ∧ (∀ (ops : List Address.WatchOp) (B : String),
      (∀ op ∈ ops, Address.addsAddr B op = false) →
      Address.IsWatched (Address.applyOps ops Address.emptyWatcher) B = false) := by
  refine ⟨?_, ?_, ?_, ?_⟩
  · simp [Address.IsWatched, AddAddresses_lookup]
  · simp [Address.IsWatched, RemoveAddresses_lookup]
  · intro B hB
    simp [Address.IsWatched, AddAddresses_lookup, hB]
  · intro ops B h
    exact applyOps_not_added ops B Address.emptyWatcher rfl h

theorem watcher_membership_witness :
    Address.IsWatched
        (Address.AddAddresses Address.emptyWatcher ["0xAB"]) "0xAB" = true
  ∧ Address.IsWatched
      (Address.RemoveAddresses
        (Address.AddAddresses Address.emptyWatcher ["0xAB"]) ["0xAB"]) "0xAB"
      = false
  ∧ (∀ op ∈ [Address.WatchOp.add ["0xAB"]], Address.addsAddr "0xab" op = false)
  ∧ Address.IsWatched
      (Address.applyOps [Address.WatchOp.add ["0xAB"]] Address.emptyWatcher)
      "0xab" = false :=
  ⟨(watcher_membership Address.emptyWatcher "0xAB").1,
   (watcher_membership Address.emptyWatcher "0xAB").2.1,
   by decide,
   (watcher_membership Address.emptyWatcher "0xAB").2.2.2
     [Address.WatchOp.add ["0xAB"]] "0xab" (by decide)⟩

end Deblock
